import Mathlib

/-!
Shallow embedding of the cart and filter logic of `src/Project/script.js`
(a client-side storefront: a shopping cart persisted in a single
localStorage key, and a search/filter engine over a product list).

JavaScript numbers are modelled as `Rat` (the numeric values that occur
here are exact in both); `NaN` — the one special value the code tests
for, via `isNaN(parseFloat(...))` — is modelled by `Option Rat` being
`none` at the point where the parsed price enters `addToCart`.
Quantities are modelled as `Int` (the code decrements them and compares
against 0, so negative values must be representable).
-/

/-- A cart line item, as stored in localStorage by `addToCart`
(`{ id, name, price, image, quantity }`, script.js line 57). -/
structure LineItem where
  id : String
  name : String
  price : Rat
  image : String
  quantity : Int
  deriving Repr, DecidableEq

/-- The persisted localStorage slot under `CART_STORAGE_KEY`: absent
(`getItem` returns null, or the empty string — both falsy), corrupt
(`JSON.parse` or `getItem` throws), or a decodable cart value. -/
inductive StoreVal where
  | absent
  | corrupt
  | value (cart : List LineItem)
  deriving Repr, DecidableEq

/-- `getCart` (script.js lines 14-22): returns the parsed cart, `[]` when
the slot is absent/falsy, and `[]` when reading or parsing throws (the
`catch` branch logs and returns `[]`). Total: no exception escapes. -/
def getCart (s : StoreVal) : List LineItem :=
  match s with
  | .absent => []
  | .corrupt => []
  | .value cart => cart

/-- `saveCart` (script.js lines 25-31): overwrites the slot with the
serialized cart; when `setItem` throws (`writeOk = false`) the error is
logged and the store is left as it was. -/
def saveCart (writeOk : Bool) (cart : List LineItem) (s : StoreVal) : StoreVal :=
  if writeOk then .value cart else s

/-- The in-place update `cart[existingItemIndex].quantity += 1` after
`findIndex` (script.js lines 52-55): increments the quantity of the
first item whose id matches, leaving everything else in place. -/
def incFirst (id : String) : List LineItem → List LineItem
  | [] => []
  | item :: rest =>
    if item.id = id then { item with quantity := item.quantity + 1 } :: rest
    else item :: incFirst id rest

/-- The cart mutation of `addToCart` (script.js lines 41-58): validation
`if (!id || !name || isNaN(price)) return;` (empty strings are falsy,
`price = none` models NaN), then increment the first existing item with
this id, or push a fresh item with quantity 1. -/
def addItem (id name : String) (price : Option Rat) (image : String)
    (cart : List LineItem) : List LineItem :=
  match price with
  | none => cart
  | some p =>
    if id = "" ∨ name = "" then cart
    else if cart.any (fun item => item.id = id) then incFirst id cart
    else cart ++ [{ id := id, name := name, price := p, image := image, quantity := 1 }]

/-- `removeFromCart` (script.js lines 71-77): `cart.filter(item => item.id !== id)`. -/
def removeItem (id : String) (cart : List LineItem) : List LineItem :=
  cart.filter (fun item => item.id ≠ id)

/-- `decrementQuantity` (script.js lines 80-93): on the first item whose
id matches, `quantity -= 1`, then `splice` it out when the decremented
quantity is `<= 0`; no-op when `findIndex` returns -1. -/
def decrementItem (id : String) : List LineItem → List LineItem
  | [] => []
  | item :: rest =>
    if item.id = id then
      if item.quantity - 1 ≤ 0 then rest
      else { item with quantity := item.quantity - 1 } :: rest
    else item :: decrementItem id rest

/-- The page state `placeOrder` touches: the persisted store and whether
the order-placed modal has been shown. -/
structure PageState where
  store : StoreVal
  modalShown : Bool
  deriving Repr, DecidableEq

/-- `placeOrder` (script.js lines 356-379): loads the cart, returns
immediately when it is empty (before any UI effect), otherwise shows the
confirmation modal and removes the storage key entirely
(`localStorage.removeItem`). -/
def placeOrder (s : PageState) : PageState :=
  if getCart s.store = [] then s
  else { store := .absent, modalShown := true }

-- ### Serialization (JSON.stringify / JSON.parse on cart arrays)

/-- The JSON value space relevant to cart serialization. -/
inductive Json where
  | str (s : String)
  | num (q : Rat)
  | arr (xs : List Json)
  | obj (fields : List (String × Json))

/-- `JSON.stringify` of one line item, at the value level: the object
with the five fields in the order they were constructed (script.js
line 57). -/
def encodeItem (it : LineItem) : Json :=
  .obj [("id", .str it.id), ("name", .str it.name), ("price", .num it.price),
        ("image", .str it.image), ("quantity", .num (it.quantity : Rat))]

/-- `JSON.stringify` of a cart: the array of encoded items. -/
def encodeCart (cart : List LineItem) : Json :=
  .arr (cart.map encodeItem)

/-- Decoding one line item back from its JSON value; the quantity must
be an integer. -/
def decodeItem : Json → Option LineItem
  | .obj [("id", .str i), ("name", .str n), ("price", .num p),
          ("image", .str im), ("quantity", .num q)] =>
    if q.den = 1 then some { id := i, name := n, price := p, image := im, quantity := q.num }
    else none
  | _ => none

/-- Decoding a list of JSON values into line items, failing if any
element fails. -/
def decodeItems : List Json → Option (List LineItem)
  | [] => some []
  | j :: rest =>
    match decodeItem j, decodeItems rest with
    | some it, some its => some (it :: its)
    | _, _ => none

/-- Decoding a cart: a JSON array of items. -/
def decodeCart : Json → Option (List LineItem)
  | .arr js => decodeItems js
  | _ => none

-- ### Filter engine

/-- A product as the filter sees it: the `data-product-title`,
`data-product-keywords` and `data-product-category` attributes of a
product card (script.js lines 229-231). -/
structure Product where
  title : String
  keywords : String
  category : String
  deriving Repr, DecidableEq

/-- JavaScript `.toLowerCase()`, modelled character by character. -/
def jsToLower (s : String) : String :=
  ⟨s.data.map Char.toLower⟩

/-- JavaScript `.trim()`: strips leading and trailing whitespace. -/
def jsTrim (s : String) : String :=
  ⟨((s.data.dropWhile Char.isWhitespace).reverse.dropWhile Char.isWhitespace).reverse⟩

/-- `charsLead pat s`: `pat` is a leading segment of `s`. -/
def charsLead : List Char → List Char → Bool
  | [], _ => true
  | _ :: _, [] => false
  | a :: as, b :: bs => a = b && charsLead as bs

/-- `charsContains pat s`: `pat` occurs contiguously somewhere in `s`. -/
def charsContains (pat : List Char) : List Char → Bool
  | [] => charsLead pat []
  | c :: rest => charsLead pat (c :: rest) || charsContains pat rest

/-- JavaScript `s.includes(pat)`: `pat` occurs as a contiguous substring
of `s` (case-sensitive, as in the source). -/
def strIncludes (s pat : String) : Bool :=
  charsContains pat.data s.data

/-- `performSearch` storing the query (script.js line 181):
`searchInput.value.trim().toLowerCase()`. -/
def setSearchQuery (q : String) : String :=
  jsToLower (jsTrim q)

/-- `filterByCategory` storing the category (script.js line 201):
`category.toLowerCase()`. -/
def setCategory (c : String) : String :=
  jsToLower c

/-- The per-card predicate of `applyFilters` (script.js lines 233-243):
`categoryMatch && searchMatch`, where the category check is an exact
string comparison against the stored category and the search check is a
case-sensitive `includes` of the stored query in title, keywords or
category. -/
def productMatches (query category : String) (p : Product) : Bool :=
  (category == "all" || p.category == category) &&
  (query == "" || strIncludes p.title query || strIncludes p.keywords query ||
    strIncludes p.category query)

/-- The visible-card sequence `applyFilters` produces: the cards for
which the predicate holds, in input order (the loop only toggles
per-card visibility, never reorders). -/
def evaluate (query category : String) (ps : List Product) : List Product :=
  ps.filter (productMatches query category)

/-- The display transform applied to the category in messages: the
global single-character regex replace of every dash by a space. -/
def dashToSpace (s : String) : String :=
  (s.data.map fun ch => if ch = '-' then ' ' else ch).asString

/-- The summary message of `applyFilters` (script.js lines 261-273,
including the display transform that replaces each dash in the category
with a space); the empty string models the branch where no message
element is inserted. -/
def summaryMessage (query category : String) (foundCount : Nat) : String :=
  let catDisp := dashToSpace category
  if query ≠ "" ∧ category = "all" then
    if foundCount > 0 then
      "Showing " ++ toString foundCount ++ " results for: <strong>\"" ++ query ++ "\"</strong>"
    else
      "No results found for: <strong>\"" ++ query ++ "\"</strong>"
  else if query = "" ∧ category ≠ "all" then
    "Showing " ++ toString foundCount ++ " results in <strong>" ++ catDisp ++ "</strong>"
  else if query ≠ "" ∧ category ≠ "all" then
    if foundCount > 0 then
      "Showing " ++ toString foundCount ++ " results for <strong>\"" ++ query ++
        "\"</strong> in <strong>" ++ catDisp ++ "</strong>"
    else
      "No results found for <strong>\"" ++ query ++ "\"</strong> in <strong>" ++
        catDisp ++ "</strong>"
  else ""

/-- The full outcome of one `applyFilters` run: the visible cards, the
`foundCount`, and the summary message text. -/
def applyFilters (query category : String) (ps : List Product) :
    List Product × Nat × String :=
  let found := evaluate query category ps
  (found, found.length, summaryMessage query category found.length)

/-- The matcher as the specification words it, for comparison: both the
query and the product fields case-folded before the substring checks. -/
def productMatchesSpec (query category : String) (p : Product) : Bool :=
  (jsToLower category == "all" || jsToLower p.category == jsToLower category) &&
  (jsToLower query == "" || strIncludes (jsToLower p.title) (jsToLower query) ||
    strIncludes (jsToLower p.keywords) (jsToLower query) ||
    strIncludes (jsToLower p.category) (jsToLower query))

-- ### Helper lemmas

theorem incFirst_length (id : String) (cart : List LineItem) :
    (incFirst id cart).length = cart.length := by
  induction cart with
  | nil => rfl
  | cons item rest ih =>
    by_cases h : item.id = id <;> simp [incFirst, h, ih]

theorem incFirst_find? (id : String) (cart : List LineItem) :
    (incFirst id cart).find? (fun it => it.id = id)
      = (cart.find? fun it => it.id = id).map
          (fun it => { it with quantity := it.quantity + 1 }) := by
  induction cart with
  | nil => rfl
  | cons item rest ih =>
    by_cases h : item.id = id
    · simp [incFirst, h, List.find?_cons_of_pos]
    · simp [incFirst, h, List.find?_cons_of_neg, ih]

theorem incFirst_append_left (id : String) (l₁ l₂ : List LineItem)
    (h : ∀ x ∈ l₁, x.id ≠ id) :
    incFirst id (l₁ ++ l₂) = l₁ ++ incFirst id l₂ := by
  induction l₁ with
  | nil => rfl
  | cons x xs ih =>
    have hx : x.id ≠ id := h x (List.mem_cons_self x xs)
    simp only [List.cons_append, incFirst, if_neg hx, List.append_eq]
    rw [ih fun y hy => h y (List.mem_cons_of_mem x hy)]

theorem map_inc_of_absent (id : String) (cart : List LineItem)
    (h : ∀ x ∈ cart, x.id ≠ id) :
    cart.map (fun it => if it.id = id then { it with quantity := it.quantity + 1 } else it)
      = cart := by
  induction cart with
  | nil => rfl
  | cons x xs ih =>
    have hx : x.id ≠ id := h x (List.mem_cons_self x xs)
    simp only [List.map_cons, if_neg hx, ih fun y hy => h y (List.mem_cons_of_mem x hy)]

theorem decodeItem_encodeItem (it : LineItem) :
    decodeItem (encodeItem it) = some it := rfl

-- ### Claim theorems

/-- C3, counterexample: the claim says a negative price fails validation
and leaves the cart unchanged; the code only tests `isNaN(price)`, so a
negative finite price such as -5 passes validation and the item is
appended. -/
theorem addItem_negative_price_cex :
    addItem "w1" "Watch" (some (-5)) "img" [] =
      [{ id := "w1", name := "Watch", price := -5, image := "img", quantity := 1 }] := by
  rfl

/-- C3 (amended): `addItem` validates only that `id` and `name` are
non-empty and that the price is not NaN; whenever the id or name is
empty or the price is NaN, the cart is left completely unchanged and no
exception is raised (the operation is a total no-op). Negative finite
prices pass validation. -/
theorem addItem_validation (id name : String) (price : Option Rat) (image : String)
    (cart : List LineItem)
    (h : id = "" ∨ name = "" ∨ price = none) :
    addItem id name price image cart = cart := by
  match price with
  | none => rfl
  | some p =>
    rcases h with h | h | h
    · simp [addItem, h]
    · simp [addItem, h]
    · exact absurd h (by simp)

/-- C3, witness: the spec's own example — empty id, NaN price — on the
empty cart. -/
theorem addItem_validation_witness :
    addItem "" "X" none "" [] = [] :=
  addItem_validation "" "X" none "" [] (Or.inl rfl)

/-- C7: `getCart` returns the persisted cart when the slot holds a
decodable value, and the empty sequence when the slot is absent or the
read/parse fails; it is a total function, so no decoding failure ever
propagates as an exception. -/
theorem getCart_spec :
    getCart StoreVal.absent = [] ∧ getCart StoreVal.corrupt = []
    ∧ ∀ cart : List LineItem, getCart (StoreVal.value cart) = cart :=
  ⟨rfl, rfl, fun _ => rfl⟩

/-- C8: a successful `saveCart` followed by `getCart` returns the exact
cart that was saved, and the JSON encoding of a cart decodes back to a
structurally equal cart — item order and all five fields preserved. -/
theorem save_load_roundtrip (cart : List LineItem) (s : StoreVal) :
    getCart (saveCart true cart s) = cart
    ∧ decodeCart (encodeCart cart) = some cart := by
  refine ⟨rfl, ?_⟩
  induction cart with
  | nil => rfl
  | cons it rest ih =>
    simp only [encodeCart, List.map_cons, decodeCart, decodeItems, decodeItem_encodeItem]
    simp only [encodeCart, decodeCart] at ih
    rw [ih]

/-- C5: `removeItem` is idempotent — applying it twice equals applying
it once; it removes every line item bearing the given id (so the item
with that id, under the one-per-id invariant), keeps all the others in
their original relative order, and is a no-op when the id is absent. -/
theorem removeItem_spec (id : String) (cart : List LineItem) :
    removeItem id (removeItem id cart) = removeItem id cart
    ∧ (∀ it ∈ removeItem id cart, it.id ≠ id)
    ∧ (∀ it ∈ cart, it.id ≠ id → it ∈ removeItem id cart)
    ∧ (removeItem id cart).Sublist cart
    ∧ ((∀ it ∈ cart, it.id ≠ id) → removeItem id cart = cart) := by
  refine ⟨?_, ?_, ?_, ?_, ?_⟩
  · simp [removeItem, List.filter_filter]
  · intro it hit
    have := List.of_mem_filter hit
    simpa using this
  · intro it hit hne
    exact List.mem_filter.2 ⟨hit, by simpa using hne⟩
  · exact List.filter_sublist _
  · intro h
    apply List.filter_eq_self.2
    intro it hit
    simpa using h it hit

/-- C5, witness: removing id "a" from a two-item cart once and twice
gives the same result, and removing an absent id "z" changes nothing. -/
theorem removeItem_witness :
    (removeItem "a" (removeItem "a"
        [{ id := "a", name := "A", price := 1, image := "", quantity := 1 },
         { id := "b", name := "B", price := 2, image := "", quantity := 3 }])
      = removeItem "a"
        [{ id := "a", name := "A", price := 1, image := "", quantity := 1 },
         { id := "b", name := "B", price := 2, image := "", quantity := 3 }])
    ∧ (removeItem "z"
        [{ id := "a", name := "A", price := 1, image := "", quantity := 1 }]
      = [{ id := "a", name := "A", price := 1, image := "", quantity := 1 }]) :=
  ⟨(removeItem_spec "a" _).1,
   (removeItem_spec "z" _).2.2.2.2 (by decide)⟩

/-- Splitting `decrementItem` at the first occurrence of the id: the
prefix without the id passes through, and the matching item is
decremented or spliced out according to the code's `<= 0` test. -/
theorem decrementItem_split (id : String) (pre suf : List LineItem) (it0 : LineItem)
    (hpre : ∀ x ∈ pre, x.id ≠ id) (hit0 : it0.id = id) :
    decrementItem id (pre ++ it0 :: suf) =
      if it0.quantity - 1 ≤ 0 then pre ++ suf
      else pre ++ { it0 with quantity := it0.quantity - 1 } :: suf := by
  induction pre with
  | nil => simp only [List.nil_append, decrementItem, if_pos hit0]
  | cons x xs ih =>
    have hx : x.id ≠ id := hpre x (List.mem_cons_self x xs)
    simp only [List.cons_append, decrementItem, if_neg hx, List.append_eq]
    rw [ih fun y hy => hpre y (List.mem_cons_of_mem x hy)]
    by_cases hz : it0.quantity - 1 ≤ 0 <;> simp [hz]

/-- C1: with valid inputs, if some line item already bears the id, the
cart keeps its length (nothing is appended) and the item found under
that id is the old one with its quantity incremented by 1; if no item
bears the id, a fresh line item with quantity 1 is appended at the end;
and adding the same id twice starting from a cart without it leaves
exactly one line item with that id, carrying quantity 2. -/
theorem addItem_spec (id name : String) (p : Rat) (image : String)
    (cart : List LineItem)
    (hid : id ≠ "") (hname : name ≠ "") :
    ((∃ it ∈ cart, it.id = id) →
      (addItem id name (some p) image cart).length = cart.length ∧
      (addItem id name (some p) image cart).find? (fun it => it.id = id)
        = (cart.find? fun it => it.id = id).map
            (fun it => { it with quantity := it.quantity + 1 }))
    ∧ ((∀ it ∈ cart, it.id ≠ id) →
      addItem id name (some p) image cart
        = cart ++ [{ id := id, name := name, price := p, image := image, quantity := 1 }])
    ∧ ((∀ it ∈ cart, it.id ≠ id) →
      (addItem id name (some p) image (addItem id name (some p) image cart)).filter
          (fun it => it.id = id)
        = [{ id := id, name := name, price := p, image := image, quantity := 2 }]) := by
  have hvalid : ¬(id = "" ∨ name = "") := by
    rintro (h | h) <;> [exact hid h; exact hname h]
  refine ⟨?_, ?_, ?_⟩
  · rintro ⟨it0, hmem, hit0⟩
    have hany : cart.any (fun item => item.id = id) = true := by
      simp only [List.any_eq_true, decide_eq_true_eq]
      exact ⟨it0, hmem, hit0⟩
    simp only [addItem, if_neg hvalid, hany, if_pos]
    exact ⟨incFirst_length id cart, incFirst_find? id cart⟩
  · intro habs
    have hany : cart.any (fun item => item.id = id) = false := by
      simp only [List.any_eq_false, decide_eq_true_eq]
      exact habs
    simp [addItem, if_neg hvalid, hany]
  · intro habs
    have hany : cart.any (fun item => item.id = id) = false := by
      simp only [List.any_eq_false, decide_eq_true_eq]
      exact habs
    have hfirst : addItem id name (some p) image cart
        = cart ++ [(⟨id, name, p, image, 1⟩ : LineItem)] := by
      simp [addItem, if_neg hvalid, hany]
    rw [hfirst]
    have hany2 : ((cart ++ [(⟨id, name, p, image, 1⟩ : LineItem)]).any
        (fun item => item.id = id)) = true := by
      simp
    simp only [addItem, if_neg hvalid, hany2, if_pos]
    rw [incFirst_append_left id cart _ habs]
    have hinc : incFirst id [(⟨id, name, p, image, 1⟩ : LineItem)]
        = [(⟨id, name, p, image, 2⟩ : LineItem)] := by
      norm_num [incFirst]
    rw [hinc, List.filter_append]
    have h1 : cart.filter (fun it => decide (it.id = id)) = [] := by
      simp only [List.filter_eq_nil_iff, decide_eq_true_eq]
      exact habs
    rw [h1]
    simp

/-- C1, witness: adding id "a" twice to the empty cart (valid inputs)
exercises the appended-item and one-item-with-quantity-2 conjuncts at
concrete values. -/
theorem addItem_spec_witness :
    (addItem "a" "A" (some 3) "i" []
      = [{ id := "a", name := "A", price := 3, image := "i", quantity := 1 }])
    ∧ ((addItem "a" "A" (some 3) "i" (addItem "a" "A" (some 3) "i" [])).filter
        (fun it => it.id = "a")
      = [{ id := "a", name := "A", price := 3, image := "i", quantity := 2 }]) :=
  ⟨(addItem_spec "a" "A" 3 "i" [] (by decide) (by decide)).2.1 (by simp),
   (addItem_spec "a" "A" 3 "i" [] (by decide) (by decide)).2.2 (by simp)⟩

/-- C4: on a cart whose items all have quantity ≥ 1, `decrementItem`
keeps that invariant (no item with quantity ≤ 0 ever remains); it leaves
the cart unchanged when the id is absent; and on the first item bearing
the id it decrements the quantity by 1, removing the item entirely
exactly when its quantity was 1. -/
theorem decrementItem_spec (id : String) (cart : List LineItem)
    (hq : ∀ it ∈ cart, 1 ≤ it.quantity) :
    (∀ it ∈ decrementItem id cart, 1 ≤ it.quantity)
    ∧ ((∀ it ∈ cart, it.id ≠ id) → decrementItem id cart = cart)
    ∧ (∀ pre it0 suf, cart = pre ++ it0 :: suf → (∀ x ∈ pre, x.id ≠ id) → it0.id = id →
        decrementItem id cart =
          if it0.quantity = 1 then pre ++ suf
          else pre ++ { it0 with quantity := it0.quantity - 1 } :: suf) := by
  refine ⟨?_, ?_, ?_⟩
  · induction cart with
    | nil => intro it hit; cases hit
    | cons x xs ih =>
      intro it hit
      have hx : 1 ≤ x.quantity := hq x (List.mem_cons_self x xs)
      have hxs : ∀ y ∈ xs, 1 ≤ y.quantity := fun y hy => hq y (List.mem_cons_of_mem x hy)
      by_cases h : x.id = id
      · simp only [decrementItem, if_pos h] at hit
        by_cases hz : x.quantity - 1 ≤ 0
        · rw [if_pos hz] at hit
          exact hxs it hit
        · rw [if_neg hz] at hit
          rcases List.mem_cons.1 hit with h1 | h1
          · subst h1
            show 1 ≤ x.quantity - 1
            omega
          · exact hxs it h1
      · simp only [decrementItem, if_neg h] at hit
        rcases List.mem_cons.1 hit with h1 | h1
        · subst h1; exact hx
        · exact ih hxs it h1
  · intro habs
    induction cart with
    | nil => rfl
    | cons x xs ih =>
      have hx : x.id ≠ id := habs x (List.mem_cons_self x xs)
      simp only [decrementItem, if_neg hx]
      rw [ih (fun y hy => hq y (List.mem_cons_of_mem x hy))
            (fun y hy => habs y (List.mem_cons_of_mem x hy))]
  · intro pre it0 suf hsplit hpre hit0
    have h1 : 1 ≤ it0.quantity := by
      refine hq it0 ?_
      rw [hsplit]
      exact List.mem_append_right pre (List.mem_cons_self it0 suf)
    rw [hsplit, decrementItem_split id pre suf it0 hpre hit0]
    by_cases hz : it0.quantity = 1
    · rw [if_pos (by omega : it0.quantity - 1 ≤ 0), if_pos hz]
    · rw [if_neg (by omega : ¬it0.quantity - 1 ≤ 0), if_neg hz]

/-- C4, witness: on the cart [a:1, b:2] (quantities ≥ 1), decrementing
"a" removes it, the invariant holds afterwards, and decrementing the
absent id "z" changes nothing. -/
theorem decrementItem_witness :
    (∀ it ∈ decrementItem "a"
        [(⟨"a", "A", 1, "", 1⟩ : LineItem), ⟨"b", "B", 2, "", 2⟩],
      1 ≤ it.quantity)
    ∧ (decrementItem "z" [(⟨"a", "A", 1, "", 1⟩ : LineItem)]
        = [(⟨"a", "A", 1, "", 1⟩ : LineItem)])
    ∧ (decrementItem "a"
        [(⟨"a", "A", 1, "", 1⟩ : LineItem), ⟨"b", "B", 2, "", 2⟩]
        = [(⟨"b", "B", 2, "", 2⟩ : LineItem)]) :=
  ⟨(decrementItem_spec "a" _ (by decide)).1,
   (decrementItem_spec "z" _ (by decide)).2.1 (by decide),
   by
    have h := (decrementItem_spec "a"
        [(⟨"a", "A", 1, "", 1⟩ : LineItem), ⟨"b", "B", 2, "", 2⟩]
        (by decide)).2.2 [] ⟨"a", "A", 1, "", 1⟩ [⟨"b", "B", 2, "", 2⟩]
        rfl (by simp) rfl
    simpa using h⟩

/-- A sample one-item cart used by concrete witnesses. -/
def cartEx1 : List LineItem := [⟨"a", "A", 1, "", 1⟩]

/-- A sample page state whose store holds `cartEx1`. -/
def stateEx1 : PageState := { store := StoreVal.value cartEx1, modalShown := false }

/-- A sample page state whose store holds the empty cart. -/
def stateExEmpty : PageState := { store := StoreVal.value [], modalShown := false }

/-- C6: placing an order on an empty stored cart changes nothing (the
store keeps its value and the modal is not shown); placing an order on a
non-empty stored cart removes the storage entry entirely — a subsequent
`getCart` returns the empty sequence — and shows the acknowledgment
modal. -/
theorem placeOrder_spec (s : PageState) :
    (s.store = StoreVal.value [] → placeOrder s = s)
    ∧ (∀ c : List LineItem, c ≠ [] → s.store = StoreVal.value c →
        (placeOrder s).store = StoreVal.absent
        ∧ getCart (placeOrder s).store = []
        ∧ (placeOrder s).modalShown = true) := by
  constructor
  · intro h
    simp [placeOrder, h, getCart]
  · intro c hc hs
    have hrun : placeOrder s = { store := .absent, modalShown := true } := by
      simp [placeOrder, hs, getCart, hc]
    rw [hrun]
    exact ⟨rfl, rfl, rfl⟩

/-- C6, witness: a one-item stored cart gets cleared with the modal
shown; the empty stored cart is left untouched. -/
theorem placeOrder_witness :
    ((placeOrder stateEx1).store = StoreVal.absent
      ∧ getCart (placeOrder stateEx1).store = []
      ∧ (placeOrder stateEx1).modalShown = true)
    ∧ placeOrder stateExEmpty = stateExEmpty :=
  ⟨(placeOrder_spec stateEx1).2 cartEx1 (by decide) rfl,
   (placeOrder_spec stateExEmpty).1 rfl⟩

/-- C10: when `addItem` is called with valid inputs whose id is already
in the cart (the cart satisfying the one-item-per-id invariant), the
result is pointwise the old cart with only the matching item's quantity
field incremented: the passed name, price and image do not appear
anywhere in the result, the matching item keeps its stored name, price
and image, and every other item is unchanged. -/
theorem addItem_existing_frame (id name : String) (p : Rat) (image : String)
    (cart : List LineItem)
    (hid : id ≠ "") (hname : name ≠ "")
    (hnodup : (cart.map LineItem.id).Nodup)
    (hpresent : ∃ it ∈ cart, it.id = id) :
    addItem id name (some p) image cart
      = cart.map (fun it =>
          if it.id = id then { it with quantity := it.quantity + 1 } else it) := by
  have hvalid : ¬(id = "" ∨ name = "") := by
    rintro (h | h) <;> [exact hid h; exact hname h]
  have hany : cart.any (fun item => item.id = id) = true := by
    simp only [List.any_eq_true, decide_eq_true_eq]
    exact hpresent
  simp only [addItem, if_neg hvalid, hany, if_pos]
  clear hany hpresent
  induction cart with
  | nil => rfl
  | cons x xs ih =>
    simp only [List.map_cons] at hnodup ⊢
    rw [List.nodup_cons] at hnodup
    by_cases h : x.id = id
    · simp only [incFirst, if_pos h]
      have habs : ∀ y ∈ xs, y.id ≠ id := by
        intro y hy hyid
        exact hnodup.1 (h ▸ hyid ▸ List.mem_map_of_mem LineItem.id hy)
      rw [map_inc_of_absent id xs habs]
    · simp only [incFirst, if_neg h]
      rw [ih hnodup.2]

/-- C10, witness: adding id "a" with a different name, price and image
to the cart [a, b] only bumps a's quantity; a's stored attributes and
item b survive verbatim. -/
theorem addItem_existing_frame_witness :
    addItem "a" "New Name" (some 99) "new.png"
        [(⟨"a", "Old", 5, "old.png", 1⟩ : LineItem), ⟨"b", "B", 2, "b.png", 4⟩]
      = [(⟨"a", "Old", 5, "old.png", 2⟩ : LineItem), ⟨"b", "B", 2, "b.png", 4⟩] := by
  have h := addItem_existing_frame "a" "New Name" 99 "new.png"
      [(⟨"a", "Old", 5, "old.png", 1⟩ : LineItem), ⟨"b", "B", 2, "b.png", 4⟩]
      (by decide) (by decide) (by decide)
      ⟨⟨"a", "Old", 5, "old.png", 1⟩, List.mem_cons_self _ _, rfl⟩
  rw [h]
  decide

/-- `charsLead` decides the leading-segment relation. -/
theorem charsLead_iff (pat s : List Char) : charsLead pat s = true ↔ pat <+: s := by
  induction pat generalizing s with
  | nil => simp [charsLead]
  | cons a as ih =>
    cases s with
    | nil => simp [charsLead]
    | cons b bs =>
      simp [charsLead, List.cons_prefix_cons, ih]

/-- `charsContains` decides the contiguous-substring relation. -/
theorem charsContains_iff (pat s : List Char) : charsContains pat s = true ↔ pat <:+: s := by
  induction s with
  | nil => simp [charsContains, charsLead_iff]
  | cons c rest ih =>
    rw [charsContains, Bool.or_eq_true, charsLead_iff, ih, List.infix_cons_iff]

/-- `strIncludes` means exactly: the pattern's characters occur as a
contiguous substring of the string's characters. -/
theorem strIncludes_iff (s pat : String) :
    strIncludes s pat = true ↔ pat.data <:+: s.data :=
  charsContains_iff pat.data s.data

/-- C2, counterexample: the spec's own example — category "chronograph"
and query "orion" against a product titled "Orion Chrono" — is claimed
to match, but the code lowercases only the query and then runs a
case-sensitive `includes` against the raw title, so nothing matches;
the spec-worded (fully case-insensitive) matcher accepts it. -/
theorem evaluate_case_cex :
    evaluate (setSearchQuery "orion") (setCategory "chronograph")
        [(⟨"Orion Chrono", "", "chronograph"⟩ : Product), ⟨"Aura Classic", "", "dress"⟩]
      = []
    ∧ productMatchesSpec "orion" "chronograph"
        (⟨"Orion Chrono", "", "chronograph"⟩ : Product) = true := by
  decide

/-- C2 (amended): a product is in the filtered result iff it is in the
input and (the stored category is "all" or equals the product's category
verbatim) and (the stored query is empty or is a verbatim substring of
the product's title, keywords or category), where the stored query is
the input query trimmed and lowercased and the stored category is the
input category lowercased — i.e. matching is case-insensitive in the
query's input casing only, not in the product fields' casing; the result
preserves the input order of the products; and `strIncludes` is exactly
the substring relation. -/
theorem evaluate_spec (q c : String) (ps : List Product) (p : Product) :
    (p ∈ evaluate (setSearchQuery q) (setCategory c) ps ↔
      p ∈ ps ∧
        (jsToLower c = "all" ∨ p.category = jsToLower c) ∧
        (jsToLower (jsTrim q) = "" ∨
         (jsToLower (jsTrim q)).data <:+: p.title.data ∨
         (jsToLower (jsTrim q)).data <:+: p.keywords.data ∨
         (jsToLower (jsTrim q)).data <:+: p.category.data))
    ∧ (evaluate (setSearchQuery q) (setCategory c) ps).Sublist ps
    ∧ (∀ q2 : String, jsToLower (jsTrim q2) = jsToLower (jsTrim q) →
        evaluate (setSearchQuery q2) (setCategory c) ps
          = evaluate (setSearchQuery q) (setCategory c) ps) := by
  refine ⟨?_, List.filter_sublist ps, ?_⟩
  · rw [evaluate, List.mem_filter, setSearchQuery, setCategory]
    simp only [productMatches, Bool.and_eq_true, Bool.or_eq_true, beq_iff_eq,
      strIncludes_iff, decide_eq_true_eq]
    constructor
    · rintro ⟨hmem, ⟨hcat, hsearch⟩⟩
      refine ⟨hmem, hcat, ?_⟩
      rcases hsearch with ((h | h) | h) | h
      · exact Or.inl h
      · exact Or.inr (Or.inl h)
      · exact Or.inr (Or.inr (Or.inl h))
      · exact Or.inr (Or.inr (Or.inr h))
    · rintro ⟨hmem, hcat, hsearch⟩
      refine ⟨hmem, hcat, ?_⟩
      rcases hsearch with h | h | h | h
      · exact Or.inl (Or.inl (Or.inl h))
      · exact Or.inl (Or.inl (Or.inr h))
      · exact Or.inl (Or.inr h)
      · exact Or.inr h
  · intro q2 hq2
    rw [setSearchQuery, setSearchQuery, hq2]

/-- A sample product list used by the C2 witness. -/
def prodsEx : List Product := [⟨"orion chrono", "luxury", "chronograph"⟩]

/-- C2, witness: with lowercase product fields, the query " ORION "
(trimmed and lowercased to "orion") puts the product in the result, and
any query with the same trimmed lowercase form filters identically. -/
theorem evaluate_spec_witness :
    ((⟨"orion chrono", "luxury", "chronograph"⟩ : Product)
        ∈ evaluate (setSearchQuery " ORION ") (setCategory "all") prodsEx)
    ∧ evaluate (setSearchQuery "orion") (setCategory "all") prodsEx
        = evaluate (setSearchQuery " ORION ") (setCategory "all") prodsEx :=
  ⟨(evaluate_spec " ORION " "all" prodsEx ⟨"orion chrono", "luxury", "chronograph"⟩).1.2
      ⟨by decide, Or.inl (by decide),
       Or.inr (Or.inl ((strIncludes_iff "orion chrono" (jsToLower (jsTrim " ORION "))).1
         (by decide)))⟩,
   (evaluate_spec " ORION " "all" prodsEx ⟨"orion chrono", "luxury", "chronograph"⟩).2.2
      "orion" (by decide)⟩

/-- C9, counterexample: with no query and a selected category, the code
reports a zero match count through the very same "Showing N results in
…" template it uses for positive counts — there is no distinct
"no results" variant for that case — and with both filters at their
defaults no message is produced at all (empty either way). -/
theorem summaryMessage_cex :
    summaryMessage "" "dress" 0 = "Showing 0 results in <strong>dress</strong>"
    ∧ summaryMessage "" "dress" 1 = "Showing 1 results in <strong>dress</strong>"
    ∧ summaryMessage "" "all" 0 = "" := by
  decide

/-- C9 (amended): the summary is keyed by four mutually exclusive cases
on which of {query, category} are active; the only-query and both-set
templates each have a distinct "no results" variant produced exactly
when the match count is 0, while the only-category case reports a zero
count through its single "Showing N results" template and the
both-default case produces no message at all; `applyFilters` feeds the
filtered-match count into the message. -/
theorem summaryMessage_spec (query category : String) (n : Nat) :
    (query = "" ∧ category = "all" → summaryMessage query category n = "")
    ∧ (query ≠ "" ∧ category = "all" → summaryMessage query category n =
        if n > 0 then
          "Showing " ++ toString n ++ " results for: <strong>\"" ++ query ++ "\"</strong>"
        else
          "No results found for: <strong>\"" ++ query ++ "\"</strong>")
    ∧ (query = "" ∧ category ≠ "all" → summaryMessage query category n =
        "Showing " ++ toString n ++ " results in <strong>" ++ dashToSpace category
          ++ "</strong>")
    ∧ (query ≠ "" ∧ category ≠ "all" → summaryMessage query category n =
        if n > 0 then
          "Showing " ++ toString n ++ " results for <strong>\"" ++ query
            ++ "\"</strong> in <strong>" ++ dashToSpace category ++ "</strong>"
        else
          "No results found for <strong>\"" ++ query ++ "\"</strong> in <strong>"
            ++ dashToSpace category ++ "</strong>")
    ∧ (∀ ps : List Product,
        applyFilters query category ps
          = (evaluate query category ps, (evaluate query category ps).length,
             summaryMessage query category (evaluate query category ps).length)) := by
  refine ⟨?_, ?_, ?_, ?_, fun ps => rfl⟩
  · rintro ⟨h1, h2⟩
    simp [summaryMessage, h1, h2]
  · rintro ⟨h1, h2⟩
    simp [summaryMessage, h1, h2]
  · rintro ⟨h1, h2⟩
    simp [summaryMessage, h1, h2]
  · rintro ⟨h1, h2⟩
    simp [summaryMessage, h1, h2]

/-- C9, witness: a query with no results gets the distinct variant, and
a dashed category is displayed with the dash replaced by a space. -/
theorem summaryMessage_spec_witness :
    summaryMessage "watch" "all" 0 = "No results found for: <strong>\"watch\"</strong>"
    ∧ summaryMessage "" "dress-watches" 0
        = "Showing 0 results in <strong>dress watches</strong>" := by
  constructor
  · have h := (summaryMessage_spec "watch" "all" 0).2.1 ⟨by decide, rfl⟩
    rw [h]
    decide
  · have h := (summaryMessage_spec "" "dress-watches" 0).2.2.1 ⟨rfl, by decide⟩
    rw [h]
    decide
